import Mathlib

/-!
# Verification of the teller proxy connection lifecycle manager

Shallow embedding of `src/proxy/proxy.go` (the `proxy` package of
TARALearning/teller): the connection lifecycle manager that owns the single
current-session slot, the admission pipeline, the ping watchdog, the
write/openStream funnel and shutdown coordination.

Two models are developed:

* a functional model of the individual operations (`Proxy.write`,
  `Proxy.writeWithContext`, `Proxy.openStream`, `Proxy.newSession`,
  `Proxy.ResetPingTimer`, the funnel worker loop, `Proxy.Run`'s error
  aggregation), where goroutine scheduling and I/O results enter as explicit
  oracle parameters;
* a small-step transition system (`Machine.Step`) interleaving the acceptor
  goroutine, the handler loop and the session worker, for the admission /
  single-session invariants.

External capabilities (`daemon.Session`, `daemon.Mux`, `time.Timer`) are not
part of the embedded source slice; they are modelled from the specification
where noted.
-/

namespace Teller

/-- A `daemon.Session` reference, identified by an id.  The session's own
internals are external to the embedded package; only its identity matters
to the lifecycle manager. -/
structure Session where
  sid : Nat
deriving DecidableEq, Repr

/-- Error values observable from the embedded code.  `sessionNilWrite` is
`errors.New("write failed, session is nil")` (proxy.go line 301/313),
`sessionNilStream` is `errors.New("session is nil")` (line 326), `eof` is
`io.EOF`, and `other` stands for any further error value (http failures,
session run failures), distinguished by a code. -/
inductive Err
  | sessionNilWrite
  | sessionNilStream
  | eof
  | other (code : Nat)
deriving DecidableEq, Repr

/-- Result of running a Go function: a normal return or a run-time panic
caused by dereferencing a nil pointer. -/
inductive GoResult (α : Type)
  | ret (a : α)
  | nilPanic
deriving DecidableEq, Repr

/-- Modelled from the spec: the Transport Session capability's
`write(message) -> error` (`daemon.Session.Write`, outside the embedded
slice).  Its error result is supplied by an oracle; the method requires an
actual session value, so invoking it through a nil reference is a nil
dereference (handled at the call site, `derefWrite`). -/
def Session.Write (_s : Session) (res : Option Err) : Option Err := res

/-- Modelled from the spec: the Transport Session capability's
`writeWithContext(ctx, message) -> error` (`daemon.Session.WriteWithContext`).
The context's cancellation/deadline outcome is folded into the oracle
result. -/
def Session.WriteWithContext (_s : Session) (res : Option Err) : Option Err := res

/-- The Go method call `px.sn.Write(m)`: when the receiver `px.sn` is nil the
method body dereferences the nil session and panics; otherwise it returns the
session write's result. -/
def derefWrite (sn : Option Session) (res : Option Err) : GoResult (Option Err) :=
  match sn with
  | none => .nilPanic
  | some s => .ret (s.Write res)

namespace Proxy

/-- `Proxy.write` (proxy.go lines 297-307).  Under the lock: if `px.sn == nil`
the named return `err` is set to the "write failed, session is nil" error,
but there is no early return; the code then unconditionally evaluates
`px.sn.Write(m)` and returns `err`, discarding the result of `Write`.
`wres` is the oracle for the underlying session write's error. -/
def write (sn : Option Session) (wres : Option Err) : GoResult (Option Err) :=
  let err : Option Err := if sn = none then some .sessionNilWrite else none
  match derefWrite sn wres with
  | .nilPanic => .nilPanic
  | .ret _discarded => .ret err

/-- `Proxy.writeWithContext` (proxy.go lines 309-317).  Under the lock: if
`px.sn == nil` it returns the "write failed, session is nil" error at once;
otherwise it returns the result of `px.sn.WriteWithContext(cxt, m)`. -/
def writeWithContext (sn : Option Session) (wres : Option Err) : GoResult (Option Err) :=
  match sn with
  | none => .ret (some .sessionNilWrite)
  | some s => .ret (s.WriteWithContext wres)

/-- The close function returned by `Proxy.openStream` (proxy.go lines
331-338), for subscription id `id`.  Invoked later, it re-acquires the lock
and, if the slot `snAtCall` then holds a session, calls `Unsub(id)` on it;
the returned list is the sequence of unsubscribe calls `(session, id)` the
invocation performs. -/
def closeStreamActs (id : Nat) (snAtCall : Option Session) : List (Session × Nat) :=
  match snAtCall with
  | none => []
  | some s => [(s, id)]

/-- `Proxy.openStream` (proxy.go lines 322-341).  Under the lock: if
`px.sn == nil` it returns id 0, a no-op (non-nil) close function and the
"session is nil" error; otherwise it subscribes the handler (the fresh id
`fid` assigned by the shared mux is an oracle) and returns the id, the close
function `closeStreamActs fid`, and no error. -/
def openStream (sn : Option Session) (fid : Nat) :
    Nat × (Option Session → List (Session × Nat)) × Option Err :=
  match sn with
  | none => (0, fun _ => [], some .sessionNilStream)
  | some _ => (fid, closeStreamActs fid, none)

end Proxy

/-- State of the single-shot ping timer created by `time.NewTimer`
(proxy.go line 265).  The embedded code contains no call to `Stop`, so a
created timer is `armed` until its channel fires (`fired`), after which the
channel has been drained by the receive in the select. -/
inductive TimerState
  | armed
  | fired
deriving DecidableEq, Repr

/-- The mutable `Proxy` fields the claims observe: the current-session slot
`sn` (nil when no connection is authenticated), the `pingTimer` field (nil
until its first assignment at proxy.go line 265), and the `quit` broadcast. -/
structure ProxyState where
  sn : Option Session
  pingTimer : Option TimerState
  quit : Bool
deriving DecidableEq, Repr

namespace Proxy

/-- The `Proxy` value built by `New` (proxy.go lines 86-95): `sn` and
`pingTimer` are not assigned, so both start as Go zero values (nil); the
quit channel is open. -/
def new : ProxyState := { sn := none, pingTimer := none, quit := false }

/-- `Proxy.ResetPingTimer` (proxy.go lines 357-360): `px.pingTimer.Reset(pingTimeout)`.
Modelled from the spec for `time.Timer` (standard library, outside the
embedded slice): `Reset` operates on the timer's state, so calling it through
a nil `pingTimer` field dereferences nil. -/
def ResetPingTimer (px : ProxyState) : GoResult ProxyState :=
  match px.pingTimer with
  | none => .nilPanic
  | some _ => .ret { px with pingTimer := some .armed }

/-- Result of the `daemon.NewSession` handshake (proxy.go line 257),
supplied by an oracle: failure, or an authenticated Transport Session. -/
inductive HandshakeResult
  | failed
  | ok (sn : Session)
deriving DecidableEq, Repr

/-- Which branch of the select at proxy.go lines 275-282 fires first:
`runFirst e` means `sn.Run()`'s result `e` arrived on `errC` before the ping
timer fired; `pingFirst e` means `pingTimer.C` fired first, the raw
connection is closed, and `wg.Wait` then observes `Run` returning `e`. -/
inductive RaceOutcome
  | runFirst (e : Option Err)
  | pingFirst (e : Option Err)
deriving DecidableEq, Repr

/-- Observations of one `newSession` call: the sequence of `setSession`
writes it performed on the slot, and whether it force-closed the raw
connection. -/
structure NewSessionObs where
  setSessionCalls : List (Option Session)
  connClosed : Bool
deriving DecidableEq, Repr

/-- `Proxy.newSession` (proxy.go lines 254-286).  On handshake failure it
logs and returns, touching neither the slot nor the timer.  On success it
calls `setSession sn`, assigns `pingTimer := time.NewTimer(pingTimeout)`
(armed), starts `sn.Run()` on a worker, and races `errC` against
`pingTimer.C`: if `Run` returns first the (possibly non-EOF) error is only
logged and the timer — never stopped anywhere in the package — is left
armed; if the timer fires first the connection is closed and `wg.Wait`
still awaits `Run`.  Either way it then calls `setSession nil` and
returns. -/
def newSession (px : ProxyState) (hs : HandshakeResult) (race : RaceOutcome) :
    ProxyState × NewSessionObs :=
  match hs with
  | .failed => (px, { setSessionCalls := [], connClosed := false })
  | .ok sn =>
    match race with
    | .runFirst _e =>
        ({ px with sn := none, pingTimer := some .armed },
         { setSessionCalls := [some sn, none], connClosed := false })
    | .pingFirst _e =>
        ({ px with sn := none, pingTimer := some .fired },
         { setSessionCalls := [some sn, none], connClosed := true })

/-- `Proxy.Shutdown` begins with `close(px.quit)` (proxy.go line 214); the
listener close, `closeSession` and the http shutdown do not touch the two
fields observed here (`closeSession` closes the session but does not clear
the slot). -/
def Shutdown (px : ProxyState) : ProxyState := { px with quit := true }

/-- The http worker of `Proxy.Run` (proxy.go lines 184-194): when
`httpServ.Run()` returns an error it forwards it to `errC` only if the quit
broadcast has not fired; with quit fired it suppresses the error and
returns.  `quitFired` is whether `px.quit` was closed at that moment. -/
def httpWorkerSends (quitFired : Bool) (httpResult : Option Err) : Option Err :=
  match httpResult with
  | none => none
  | some e => if quitFired then none else some e

/-- The tail of `Proxy.Run` (proxy.go lines 196-209): the main goroutine is
blocked on `select { case <-done: return nil; case err := <-errC: return err }`
from the start, so the first channel to become ready wins.  `done` closes
only after the wait-group join of every worker; `errC` becomes ready exactly
when the http worker sends (which happens strictly before that worker's
`wg.Done`, hence before `done` can close).  So `Run` returns the forwarded
error when one was sent, and nil when termination came from the join. -/
def runReturn (sent : Option Err) : Option Err :=
  match sent with
  | some e => some e
  | none => none

/-- `Proxy.Run`'s outcome as a function of whether quit had fired when the
http worker failed, and of the http worker's result. -/
def runOutcome (quitFired : Bool) (httpResult : Option Err) : Option Err :=
  runReturn (httpWorkerSends quitFired httpResult)

end Proxy

/-- An event seen by the funnel worker loop of `Proxy.Run` (proxy.go lines
169-180): either a closure submitted through `reqC` by `strand` (tagged with
the submitting caller's id, carrying the state transformation the closure
performs), or the quit broadcast. -/
inductive FunnelEvent (σ : Type)
  | req (id : Nat) (f : σ → σ)
  | quit

/-- The funnel worker loop (proxy.go lines 169-180): a single dedicated
goroutine that repeatedly selects; on a `reqC` submission it runs the
closure to completion before selecting again (`strand`, lines 288-295,
closes the submitter's wait channel `q` only inside that closure, so the
submitting caller stays blocked until its own submission has run); on quit
it returns, serving nothing further.  Returns the final state and the ids
in the order their submissions were executed. -/
def funnelLoop {σ : Type} : List (FunnelEvent σ) → σ → σ × List Nat
  | [], s => (s, [])
  | .quit :: _, s => (s, [])
  | .req i f :: rest, s =>
      let r := funnelLoop rest (f s)
      (r.1, i :: r.2)

/-- The rendezvous order of N counter-increment submissions: caller `i`
submits the closure incrementing the shared counter (the spec's test
scenario for the funnel). -/
def incrementReqs (n : Nat) : List (FunnelEvent Nat) :=
  (List.range n).map fun i => FunnelEvent.req i (· + 1)

namespace Machine

/-- The acceptor goroutine of `Proxy.Run` (proxy.go lines 145-167): blocked
in `ln.Accept` (`waiting`), or holding a freshly accepted connection `c`
while racing the one-second grace timer against the rendezvous send on the
unbuffered `connC` (`offering c`), or returned after quit (`stopped`).
Connections are identified by the order they were accepted. -/
inductive AccState
  | waiting
  | offering (c : Nat)
  | stopped
deriving DecidableEq, Repr

/-- Program counter of the handler loop `Proxy.handleConnection` (proxy.go
lines 228-252) together with the phases of the synchronous `newSession`
call it makes (lines 254-286): at the outer select on quit/`connC`
(`selecting`); holding a handed-off connection `c` while racing the
two-second grace timer against the `execFuncC` token (`racing c`); inside
`newSession` awaiting the handshake (`authing c`); with session `sn`
registered, racing `Run`'s completion against the ping timer
(`inSession c sn`); after the ping fired and the connection was closed,
waiting out `wg.Wait` (`draining c sn`); back from `exec(conn)`, about to
recycle the token or exit on quit (`postExec`); returned (`done`). -/
inductive HState
  | selecting
  | racing (c : Nat)
  | authing (c : Nat)
  | inSession (c : Nat) (sn : Session)
  | draining (c : Nat) (sn : Session)
  | postExec
  | done
deriving DecidableEq, Repr

/-- Interleaved state of the connection lifecycle manager: the acceptor,
the handler loop, the one-slot `execFuncC` token, the mutex-guarded
current-session slot `sn`, the quit broadcast, the connections closed so
far, and the next fresh connection id. -/
structure Sys where
  acc : AccState
  hst : HState
  token : Bool
  sn : Option Session
  quit : Bool
  closed : List Nat
  nextConn : Nat
deriving DecidableEq, Repr

/-- Initial state: acceptor blocked in `Accept`, handler at its outer
select, `execFuncC` pre-loaded with the `newSession` token (proxy.go lines
229-230), empty session slot, quit open. -/
def startSys : Sys :=
  { acc := .waiting, hst := .selecting, token := true, sn := none,
    quit := false, closed := [], nextConn := 0 }

/-- One interleaving step of the system.  Channel rendezvous (the unbuffered
`connC`) appears as the synchronised `handoff` step, enabled only when the
acceptor is offering and the handler sits at its outer select; timer fires
are nondeterministic.  Locked writes to the slot (`setSession`) are single
atomic steps. -/
inductive Step : Sys → Sys → Prop
  | accept (s : Sys) (ha : s.acc = .waiting) (hq : s.quit = false) :
      Step s { s with acc := .offering s.nextConn, nextConn := s.nextConn + 1 }
  | rejectOffer (s : Sys) (c : Nat) (ha : s.acc = .offering c) :
      Step s { s with acc := .waiting, closed := c :: s.closed }
  | handoff (s : Sys) (c : Nat) (ha : s.acc = .offering c) (hh : s.hst = .selecting) :
      Step s { s with acc := .waiting, hst := .racing c }
  | handlerQuit (s : Sys) (hh : s.hst = .selecting) (hq : s.quit = true) :
      Step s { s with hst := .done }
  | raceTimeout (s : Sys) (c : Nat) (hh : s.hst = .racing c) (ht : s.token = false) :
      Step s { s with hst := .done, closed := c :: s.closed }
  | tokenTake (s : Sys) (c : Nat) (hh : s.hst = .racing c) (ht : s.token = true) :
      Step s { s with hst := .authing c, token := false }
  | authFail (s : Sys) (c : Nat) (hh : s.hst = .authing c) :
      Step s { s with hst := .postExec }
  | authOk (s : Sys) (c : Nat) (sn : Session) (hh : s.hst = .authing c) :
      Step s { s with hst := .inSession c sn, sn := some sn }
  | runDone (s : Sys) (c : Nat) (sn : Session) (hh : s.hst = .inSession c sn) :
      Step s { s with hst := .postExec, sn := none }
  | pingFire (s : Sys) (c : Nat) (sn : Session) (hh : s.hst = .inSession c sn) :
      Step s { s with hst := .draining c sn, closed := c :: s.closed }
  | drainDone (s : Sys) (c : Nat) (sn : Session) (hh : s.hst = .draining c sn) :
      Step s { s with hst := .postExec, sn := none }
  | recycle (s : Sys) (hh : s.hst = .postExec) (hq : s.quit = false) :
      Step s { s with hst := .selecting, token := true }
  | exitAfterExec (s : Sys) (hh : s.hst = .postExec) (hq : s.quit = true) :
      Step s { s with hst := .done }
  | fireQuit (s : Sys) (hq : s.quit = false) :
      Step s { s with quit := true }
  | acceptorQuit (s : Sys) (ha : s.acc = .waiting) (hq : s.quit = true) :
      Step s { s with acc := .stopped }

/-- States reachable from the initial state. -/
inductive Reachable : Sys → Prop
  | start : Reachable startSys
  | step {s s' : Sys} : Reachable s → Step s s' → Reachable s'

/-- The slot invariant: the current-session slot holds exactly the session
of the handler's in-session phase, and is empty in every other phase. -/
def SlotInv (s : Sys) : Prop :=
  match s.hst with
  | .inSession _ sn => s.sn = some sn
  | .draining _ sn => s.sn = some sn
  | _ => s.sn = none

/-- A step admitted a connection: the handler moved into its two-second
race holding a handed-off connection.  Only the `handoff` rendezvous
produces this transition, and it requires the handler to have been at its
outer select. -/
def admitted (s s' : Sys) : Prop :=
  ∃ c, s'.hst = .racing c ∧ s.hst = .selecting

/-- A concrete reachable state: connection 0 was admitted and authenticated
as session 5 (the handler is inside the run/ping race), and a second
connection 1 has just been accepted and is being offered by the acceptor. -/
def sysBusy : Sys :=
  { acc := .offering 1, hst := .inSession 0 ⟨5⟩, token := false, sn := some ⟨5⟩,
    quit := false, closed := [], nextConn := 2 }

/-- A concrete state at the handler's two-second race with the executor
token unavailable. -/
def sysRacing : Sys :=
  { acc := .waiting, hst := .racing 3, token := false, sn := none,
    quit := false, closed := [], nextConn := 4 }

lemma slotInv_start : SlotInv startSys := rfl

lemma slotInv_step {s s' : Sys} (hinv : SlotInv s) (hstep : Step s s') : SlotInv s' := by
  cases hstep with
  | accept ha hq => exact hinv
  | rejectOffer c ha => exact hinv
  | handoff c ha hh => simpa [SlotInv, hh] using hinv
  | handlerQuit hh hq => simpa [SlotInv, hh] using hinv
  | raceTimeout c hh ht => simpa [SlotInv, hh] using hinv
  | tokenTake c hh ht => simpa [SlotInv, hh] using hinv
  | authFail c hh => simpa [SlotInv, hh] using hinv
  | authOk c sn hh => simp [SlotInv]
  | runDone c sn hh => simp [SlotInv]
  | pingFire c sn hh => simpa [SlotInv, hh] using hinv
  | drainDone c sn hh => simp [SlotInv]
  | recycle hh hq => simpa [SlotInv, hh] using hinv
  | exitAfterExec hh hq => simpa [SlotInv, hh] using hinv
  | fireQuit hq => exact hinv
  | acceptorQuit ha hq => exact hinv

lemma slotInv_reachable {s : Sys} (h : Reachable s) : SlotInv s := by
  induction h with
  | start => exact slotInv_start
  | step _ hstep ih => exact slotInv_step ih hstep

end Machine

/-! ## Helper lemmas -/

lemma funnelLoop_req_events {σ : Type} (ps : List (Nat × (σ → σ))) (s : σ) :
    funnelLoop (ps.map fun p => FunnelEvent.req p.1 p.2) s
      = (ps.foldl (fun st p => p.2 st) s, ps.map Prod.fst) := by
  induction ps generalizing s with
  | nil => rfl
  | cons p ps ih => simp [funnelLoop, ih]

lemma funnelLoop_reqs {σ : Type} (ids : List Nat) (g : Nat → σ → σ) (s : σ) :
    funnelLoop (ids.map fun i => FunnelEvent.req i (g i)) s
      = (ids.foldl (fun st i => g i st) s, ids) := by
  induction ids generalizing s with
  | nil => rfl
  | cons i ids ih => simp [funnelLoop, ih]

lemma foldl_incr {α : Type} (l : List α) (a : Nat) :
    l.foldl (fun st _ => st + 1) a = a + l.length := by
  induction l generalizing a with
  | nil => rfl
  | cons x l ih => simp [List.foldl, ih]; omega

/-! ## Claims -/

/-- C1: calling `write`, `writeWithContext` or `openStream` with no session
registered is claimed to return a NoActiveSession error without blocking,
with `openStream`'s close function a harmless no-op.  `writeWithContext` and
`openStream` do behave so, but `write` has no early return on the nil check:
it sets the error and still invokes `px.sn.Write(m)` on the nil session,
which dereferences nil instead of returning the error.  This theorem
evaluates the code on the failing input and confirms the two compliant
operations. -/
theorem write_noSession_behaviour :
    (∀ wres, Proxy.write none wres = GoResult.nilPanic) ∧
    (∀ wres, Proxy.writeWithContext none wres = GoResult.ret (some Err.sessionNilWrite)) ∧
    (∀ fid, (Proxy.openStream none fid).2.2 = some Err.sessionNilStream) ∧
    (∀ fid st, (Proxy.openStream none fid).2.1 st = []) :=
  ⟨fun _ => rfl, fun _ => rfl, fun _ => rfl, fun _ _ => rfl⟩

/-- C9: with a session registered, `write` returns nil whatever error the
underlying `sn.Write(m)` produces: the result of the session write is
discarded and the named return `err` was never assigned. -/
theorem write_discards_session_error (s : Session) (wres : Option Err) :
    Proxy.write (some s) wres = GoResult.ret none := rfl

/-- C2: the claim says the PingTimer is stopped/drained on every exit path
of `newSession`, including the path where `Run` returns before the timer
fires.  The package contains no call to `pingTimer.Stop` and the `errC`
branch of the select never drains `pingTimer.C`, so on the run-returns-first
path the timer created at line 265 is still armed when `newSession`
returns.  This theorem evaluates the code on that failing path (concretely
and for every session/error). -/
theorem pingTimer_left_armed :
    ((Proxy.newSession Proxy.new (.ok ⟨0⟩) (.runFirst none)).1).pingTimer
      = some TimerState.armed ∧
    ∀ (px : ProxyState) (s : Session) (e : Option Err),
      ((Proxy.newSession px (.ok s) (.runFirst e)).1).pingTimer = some TimerState.armed :=
  ⟨rfl, fun _ _ _ => rfl⟩

/-- C4: whenever `newSession` returns, the current-session slot is empty:
on handshake failure it returns without any `setSession` call (the state is
unchanged, so the slot stays empty), and on success the `setSession` writes
are exactly `[some sn, none]` — registration followed by the locked clear
after the run/ping race — on both race outcomes, leaving the slot empty. -/
theorem newSession_clears_slot (px : ProxyState) (hs : Proxy.HandshakeResult)
    (race : Proxy.RaceOutcome) (h : px.sn = none) :
    (Proxy.newSession px hs race).1.sn = none ∧
    (hs = .failed → (Proxy.newSession px hs race).1 = px ∧
      (Proxy.newSession px hs race).2.setSessionCalls = []) ∧
    (∀ s, hs = .ok s → (Proxy.newSession px hs race).2.setSessionCalls = [some s, none]) := by
  cases hs <;> cases race <;> simp [Proxy.newSession, h]

/-- Witness for C4 at a concrete input: the fresh proxy state with a
successful handshake and the timer-fired race outcome. -/
theorem newSession_clears_slot_witness :
    (Proxy.newSession Proxy.new (.ok ⟨1⟩) (.pingFirst (some Err.eof))).1.sn = none ∧
    ((Proxy.HandshakeResult.ok ⟨1⟩) = .failed →
      (Proxy.newSession Proxy.new (.ok ⟨1⟩) (.pingFirst (some Err.eof))).1 = Proxy.new ∧
      (Proxy.newSession Proxy.new (.ok ⟨1⟩) (.pingFirst (some Err.eof))).2.setSessionCalls = []) ∧
    (∀ s, (Proxy.HandshakeResult.ok ⟨1⟩) = .ok s →
      (Proxy.newSession Proxy.new (.ok ⟨1⟩) (.pingFirst (some Err.eof))).2.setSessionCalls
        = [some s, none]) :=
  newSession_clears_slot Proxy.new (.ok ⟨1⟩) (.pingFirst (some Err.eof)) rfl

/-- C5 counterexample: the close function issued by `openStream` against
session 1 with subscription id 7, invoked after session 2 has replaced
session 1 in the slot, is not a no-op: the nil check alone passes and it
performs an unsubscribe (on the shared mux through the new session). -/
theorem closeStream_after_replacement_unsubs :
    (Proxy.openStream (some ⟨1⟩) 7).2.1 (some ⟨2⟩) ≠ [] := by decide

/-- C5 amended: invoking the close function returned by `openStream` after
the slot has been cleared is a safe no-op; but the function only checks
that some session is present, not that it is the issuing one, so when any
session occupies the slot at invocation time it unsubscribes the id through
that (possibly different) session. -/
theorem closeStream_cleared_noop (issuing : Session) (fid : Nat) :
    (Proxy.openStream (some issuing) fid).1 = fid ∧
    (Proxy.openStream (some issuing) fid).2.1 none = [] ∧
    (∀ s2, (Proxy.openStream (some issuing) fid).2.1 (some s2) = [(s2, fid)]) :=
  ⟨rfl, rfl, fun _ => rfl⟩

/-- C7: when the quit broadcast fired (shutdown in progress) the http
worker suppresses its error and `Run` terminates through the wait-group
join with nil; when the http layer fails while quit has not fired, the
error reaches `errC` first and `Run` returns it. -/
theorem run_error_aggregation (px : ProxyState) (r : Option Err) (e : Err) :
    Proxy.runOutcome (Proxy.Shutdown px).quit r = none ∧
    Proxy.runOutcome false (some e) = some e := by
  cases r <;> simp [Proxy.runOutcome, Proxy.httpWorkerSends, Proxy.runReturn, Proxy.Shutdown]

/-- C8: the funnel worker executes submissions one at a time in exactly the
order they were handed over on `reqC`, never reordered and each exactly
once; in particular N counter-increment submissions leave the counter at N
(and the execution order is the submission order `0, …, N-1`). -/
theorem funnel_total_order (n : Nat) :
    (funnelLoop (incrementReqs n) 0).1 = n ∧
    (funnelLoop (incrementReqs n) 0).2 = List.range n ∧
    (∀ (σ : Type) (ps : List (Nat × (σ → σ))) (s0 : σ),
      (funnelLoop (ps.map fun p => FunnelEvent.req p.1 p.2) s0).2 = ps.map Prod.fst) := by
  have hdef : incrementReqs n
      = (List.range n).map fun i => FunnelEvent.req i ((fun _ x => x + 1) i) := rfl
  have h := funnelLoop_reqs (List.range n) (fun _ x => x + 1) 0
  refine ⟨?_, ?_, ?_⟩
  · rw [hdef, h]
    simpa using foldl_incr (List.range n) 0
  · rw [hdef, h]
  · intro σ ps s0
    rw [funnelLoop_req_events]

/-- C10: `ResetPingTimer` on a proxy fresh from `New` dereferences the nil
`pingTimer` field; the field is assigned only inside `newSession`, and only
on the successful-handshake path (a failed handshake leaves it untouched),
so the call is unsafe until at least one handshake has succeeded. -/
theorem resetPingTimer_nil_before_session :
    Proxy.ResetPingTimer Proxy.new = GoResult.nilPanic ∧
    (∀ px race, (Proxy.newSession px .failed race).1.pingTimer = px.pingTimer) ∧
    (∀ px s race, ((Proxy.newSession px (.ok s) race).1.pingTimer).isSome = true) := by
  refine ⟨rfl, fun px race => ?_, fun px s race => ?_⟩
  · cases race <;> rfl
  · cases race <;> rfl

/-- C3: in every reachable state of the interleaved system, the slot holds
a session only while the handler is inside that session's phase (so at most
one session is ever registered, and only the one being run); no step
replaces a registered session — registration happens only from an empty
slot; while a session is registered no step can admit the offered second
connection (the `connC` rendezvous needs the handler at its outer select,
and there is no queue); and the acceptor's grace-timeout rejection step,
which closes the offered connection, is always enabled. -/
theorem single_session_admission {s : Machine.Sys} (hr : Machine.Reachable s) :
    (∀ sn, s.sn = some sn →
      ∃ c, s.hst = .inSession c sn ∨ s.hst = .draining c sn) ∧
    (∀ s' sn', Machine.Step s s' → s.sn ≠ none → s'.sn = some sn' → s.sn = some sn') ∧
    (s.sn ≠ none → ∀ s', Machine.Step s s' → ¬ Machine.admitted s s') ∧
    (∀ c, s.acc = .offering c →
      Machine.Step s { s with acc := .waiting, closed := c :: s.closed }) := by
  have hinv := Machine.slotInv_reachable hr
  refine ⟨?_, ?_, ?_, ?_⟩
  · intro sn hsn
    cases hh : s.hst <;> simp [Machine.SlotInv, hh] at hinv <;> simp_all
  · intro s' sn' hstep hne hsome
    cases hstep with
    | authOk c sn hh =>
        exact absurd (by simpa [Machine.SlotInv, hh] using hinv) hne
    | runDone c sn hh => simp at hsome
    | drainDone c sn hh => simp at hsome
    | _ => exact hsome
  · intro hne s' _hstep hadm
    obtain ⟨c, _hrac, hsel⟩ := hadm
    exact hne (by simpa [Machine.SlotInv, hsel] using hinv)
  · intro c hoff
    exact Machine.Step.rejectOffer s c hoff

/-- Witness for C3: the concrete reachable state `sysBusy`, reached by
admitting and authenticating connection 0 as session 5 and then accepting
a second connection 1 while the first session runs. -/
theorem single_session_admission_witness :
    (∀ sn, Machine.sysBusy.sn = some sn →
      ∃ c, Machine.sysBusy.hst = .inSession c sn ∨ Machine.sysBusy.hst = .draining c sn) ∧
    (∀ s' sn', Machine.Step Machine.sysBusy s' → Machine.sysBusy.sn ≠ none →
      s'.sn = some sn' → Machine.sysBusy.sn = some sn') ∧
    (Machine.sysBusy.sn ≠ none → ∀ s', Machine.Step Machine.sysBusy s' →
      ¬ Machine.admitted Machine.sysBusy s') ∧
    (∀ c, Machine.sysBusy.acc = .offering c →
      Machine.Step Machine.sysBusy
        { Machine.sysBusy with acc := .waiting, closed := c :: Machine.sysBusy.closed }) :=
  single_session_admission
    (Machine.Reachable.step
      (Machine.Reachable.step
        (Machine.Reachable.step
          (Machine.Reachable.step
            (Machine.Reachable.step Machine.Reachable.start
              (Machine.Step.accept Machine.startSys rfl rfl))
            (Machine.Step.handoff _ 0 rfl rfl))
          (Machine.Step.tokenTake _ 0 rfl rfl))
        (Machine.Step.authOk _ 0 ⟨5⟩ rfl))
      (Machine.Step.accept _ rfl rfl))

/-- C6: from a state where the handler received a handed-off connection and
the executor token is unavailable, the two-second grace timeout step closes
that connection and moves the handler to its terminal state; and from the
terminal state every step of the system leaves the handler terminated and
admits no connection — the loop never resumes awaiting connections. -/
theorem grace_timeout_stops_admission {s : Machine.Sys} {c : Nat}
    (hh : s.hst = .racing c) (ht : s.token = false) :
    Machine.Step s { s with hst := .done, closed := c :: s.closed } ∧
    (∀ t t' : Machine.Sys, t.hst = .done → Machine.Step t t' →
      t'.hst = .done ∧ ¬ Machine.admitted t t') := by
  refine ⟨Machine.Step.raceTimeout s c hh ht, ?_⟩
  intro t t' hd hstep
  constructor
  · cases hstep <;> simp_all
  · simp [Machine.admitted, hd]

/-- Witness for C6: the concrete state `sysRacing` (handler racing over
connection 3, token absent). -/
theorem grace_timeout_stops_admission_witness :
    Machine.Step Machine.sysRacing
      { Machine.sysRacing with hst := .done, closed := 3 :: Machine.sysRacing.closed } ∧
    (∀ t t' : Machine.Sys, t.hst = .done → Machine.Step t t' →
      t'.hst = .done ∧ ¬ Machine.admitted t t') :=
  grace_timeout_stops_admission rfl rfl

end Teller
